import Mathlib

/-!
# Verification of the `mddplayer` terminal music player core

Shallow embedding of the playback-session engine of `src/main.rs` together
with the display helpers of `src/utils.rs`, and proofs of the specified
properties.  Machine integers of the source are modelled as `Nat`
(`usize` index arithmetic uses saturating/wrapping operations explicitly,
mirrored by `Nat` truncated subtraction and `%`); instants are modelled as
`Nat` milliseconds on a monotone clock; the fallible channel receive is
modelled by an explicit event list.
-/

/-! ## Track scheduler: forced skips (`main.rs` lines 453-462 and 476-486)

A `Right`/`Left` key press is legal only under the guard of lines 455/461;
a legal press breaks the inner loop with `index_offset = ±1` and the index
is then updated by lines 477-481.  `apply_forced_skip` is the composite of
the legality guard and the index update, as a pure function. -/

inductive SkipDir where
  | forward
  | backward
deriving DecidableEq, Repr

/-- Composite of the skip legality guard (`main.rs:455` / `main.rs:461`,
where `total_tracks.saturating_sub(1)` is `Nat` subtraction) and the
index-update logic for `index_offset = 1` / `index_offset = -1`
(`main.rs:477-481`).  `none` means the key press is ignored (no-op). -/
def apply_forced_skip (cur total : Nat) (loopE : Bool) (dir : SkipDir) : Option Nat :=
  match dir with
  | SkipDir.forward =>
      if cur < total - 1 ∨ loopE then some ((cur + 1) % total) else none
  | SkipDir.backward =>
      if 0 < cur ∨ loopE then some (if cur = 0 then total - 1 else cur - 1) else none

/-! ## Display truncation (`src/utils.rs` lines 70-98)

`truncate_string` is width-aware: character display widths come from the
external `unicode_width` crate, modelled here as an arbitrary width
function `w : Char → Nat` (the crate assigns `'.'` width 1). -/

/-- `UnicodeWidthStr::width`: the sum of the character widths. -/
def strWidth (w : Char → Nat) (s : List Char) : Nat := (s.map w).sum

/-- The accumulation loop of `truncate_string` (`utils.rs:83-94`): push
characters while the running width stays within `maxContent`. -/
def truncatePieces (w : Char → Nat) (maxContent : Nat) : Nat → List Char → List Char
  | _, [] => []
  | curWidth, c :: rest =>
      if curWidth + w c > maxContent then []
      else c :: truncatePieces w maxContent (curWidth + w c) rest

/-- `utils.rs:70-98`: keep 3 columns for `"..."`; below that return the
empty string; a string already fitting in `maxWidth` is returned
unchanged; otherwise accumulate a width-bounded head and append `"..."`. -/
def truncate_string (w : Char → Nat) (s : List Char) (maxWidth : Nat) : List Char :=
  if maxWidth < 3 then []
  else if strWidth w s ≤ maxWidth then s
  else truncatePieces w (maxWidth - 3) 0 s ++ ['.', '.', '.']

theorem truncatePieces_width_le (w : Char → Nat) (m : Nat) :
    ∀ (s : List Char) (cw : Nat), cw ≤ m →
      cw + strWidth w (truncatePieces w m cw s) ≤ m := by
  intro s
  induction s with
  | nil => intro cw h; simpa [truncatePieces, strWidth] using h
  | cons c rest ih =>
      intro cw h
      by_cases hc : cw + w c > m
      · simpa [truncatePieces, hc, strWidth] using h
      · have h' : cw + w c ≤ m := by omega
        have := ih (cw + w c) h'
        simp only [truncatePieces, hc, ite_false, if_false, eq_self_iff_true,
          decide_True, decide_False, strWidth, List.map_cons, List.sum_cons] at *
        omega

theorem truncatePieces_is_take (w : Char → Nat) (m : Nat) :
    ∀ (s : List Char) (cw : Nat), ∃ n, truncatePieces w m cw s = s.take n := by
  intro s
  induction s with
  | nil => intro cw; exact ⟨0, rfl⟩
  | cons c rest ih =>
      intro cw
      by_cases hc : cw + w c > m
      · exact ⟨0, by simp [truncatePieces, hc]⟩
      · obtain ⟨n, hn⟩ := ih (cw + w c)
        exact ⟨n + 1, by simp [truncatePieces, hc, hn]⟩

/-- C10: for every width function with `w '.' = 1`, every string and every
`max_width`: the result of `truncate_string` has display width at most
`max_width`; if `max_width < 3` the result is empty; if the string already
fits it is returned unchanged; otherwise the result is a prefix of the
string of display width at most `max_width - 3` followed by `"..."`. -/
theorem truncate_string_spec (w : Char → Nat) (s : List Char) (maxWidth : Nat)
    (hdot : w '.' = 1) :
    strWidth w (truncate_string w s maxWidth) ≤ maxWidth ∧
    (maxWidth < 3 → truncate_string w s maxWidth = []) ∧
    (3 ≤ maxWidth → strWidth w s ≤ maxWidth → truncate_string w s maxWidth = s) ∧
    (3 ≤ maxWidth → maxWidth < strWidth w s →
      ∃ n, truncate_string w s maxWidth = s.take n ++ ['.', '.', '.'] ∧
        strWidth w (s.take n) ≤ maxWidth - 3) := by
  refine ⟨?_, ?_, ?_, ?_⟩
  · by_cases h3 : maxWidth < 3
    · simp [truncate_string, h3, strWidth]
    · by_cases hfit : strWidth w s ≤ maxWidth
      · simp [truncate_string, h3, hfit]
      · have hb := truncatePieces_width_le w (maxWidth - 3) s 0 (Nat.zero_le _)
        simp only [truncate_string, h3, hfit, if_neg, if_false]
        simp only [strWidth, List.map_append, List.sum_append] at *
        simp [hdot]
        omega
  · intro h3; simp [truncate_string, h3]
  · intro h3 hfit
    simp [truncate_string, Nat.not_lt.mpr h3, hfit]
  · intro h3 hbig
    obtain ⟨n, hn⟩ := truncatePieces_is_take w (maxWidth - 3) s 0
    refine ⟨n, ?_, ?_⟩
    · simp [truncate_string, Nat.not_lt.mpr h3, Nat.not_le.mpr hbig, hn]
    · have hb := truncatePieces_width_le w (maxWidth - 3) s 0 (Nat.zero_le _)
      rw [hn] at hb
      omega

/-- C10 witness: a concrete evaluation of `truncate_string_spec`. -/
theorem truncate_string_spec_witness :
    strWidth (fun _ => 1) (truncate_string (fun _ => 1) ("hello world".toList) 8) ≤ 8 ∧
    (8 < 3 → truncate_string (fun _ => 1) ("hello world".toList) 8 = []) ∧
    (3 ≤ 8 → strWidth (fun _ => 1) ("hello world".toList) ≤ 8 →
      truncate_string (fun _ => 1) ("hello world".toList) 8 = "hello world".toList) ∧
    (3 ≤ 8 → 8 < strWidth (fun _ => 1) ("hello world".toList) →
      ∃ n, truncate_string (fun _ => 1) ("hello world".toList) 8 =
          ("hello world".toList).take n ++ ['.', '.', '.'] ∧
        strWidth (fun _ => 1) (("hello world".toList).take n) ≤ 8 - 3) :=
  truncate_string_spec (fun _ => 1) ("hello world".toList) 8 rfl

/-- C1: for every playlist of `total > 0` tracks, every in-range index and
every loop setting, a forced skip is the pure function
`apply_forced_skip`: forward at the last index without loop is a no-op;
forward at the last index with loop wraps to `0`; backward at index `0`
without loop is a no-op; backward at index `0` with loop wraps to
`total - 1`; in all other cases the index changes by exactly `+1` / `-1`. -/
theorem apply_forced_skip_spec (cur total : Nat) (loopE : Bool) (dir : SkipDir)
    (htot : 0 < total) (hcur : cur < total) :
    (dir = SkipDir.forward → loopE = false → cur = total - 1 →
      apply_forced_skip cur total loopE dir = none) ∧
    (dir = SkipDir.forward → loopE = true → cur = total - 1 →
      apply_forced_skip cur total loopE dir = some 0) ∧
    (dir = SkipDir.backward → loopE = false → cur = 0 →
      apply_forced_skip cur total loopE dir = none) ∧
    (dir = SkipDir.backward → loopE = true → cur = 0 →
      apply_forced_skip cur total loopE dir = some (total - 1)) ∧
    (dir = SkipDir.forward → cur < total - 1 →
      apply_forced_skip cur total loopE dir = some (cur + 1)) ∧
    (dir = SkipDir.backward → 0 < cur →
      apply_forced_skip cur total loopE dir = some (cur - 1)) := by
  refine ⟨?_, ?_, ?_, ?_, ?_, ?_⟩
  · rintro rfl rfl rfl
    simp [apply_forced_skip]
  · rintro rfl rfl rfl
    have : total - 1 + 1 = total := by omega
    simp [apply_forced_skip, this, Nat.mod_self]
  · rintro rfl rfl rfl
    simp [apply_forced_skip]
  · rintro rfl rfl rfl
    simp [apply_forced_skip]
  · rintro rfl hlt
    have h1 : cur + 1 < total := by omega
    simp [apply_forced_skip, hlt, Nat.mod_eq_of_lt h1]
  · rintro rfl hpos
    have hne : cur ≠ 0 := by omega
    simp [apply_forced_skip, hpos, hne]

/-- C1 witness: a concrete evaluation of `apply_forced_skip_spec`. -/
theorem apply_forced_skip_spec_witness :
    (SkipDir.forward = SkipDir.forward → false = false → 2 = 3 - 1 →
      apply_forced_skip 2 3 false SkipDir.forward = none) ∧
    (SkipDir.forward = SkipDir.forward → false = true → 2 = 3 - 1 →
      apply_forced_skip 2 3 false SkipDir.forward = some 0) ∧
    (SkipDir.forward = SkipDir.backward → false = false → 2 = 0 →
      apply_forced_skip 2 3 false SkipDir.forward = none) ∧
    (SkipDir.forward = SkipDir.backward → false = true → 2 = 0 →
      apply_forced_skip 2 3 false SkipDir.forward = some (3 - 1)) ∧
    (SkipDir.forward = SkipDir.forward → 2 < 3 - 1 →
      apply_forced_skip 2 3 false SkipDir.forward = some (2 + 1)) ∧
    (SkipDir.forward = SkipDir.backward → 0 < 2 →
      apply_forced_skip 2 3 false SkipDir.forward = some (2 - 1)) :=
  apply_forced_skip_spec 2 3 false SkipDir.forward (by decide) (by decide)

/-! ## Preloader messages and the coordinator's await loop
(`main.rs` lines 46-57, 107-117, 119-134 and 305-340)

The preload channel is modelled by the explicit list of events the
`rx.recv_timeout` loop observes: a delivered message, a timeout, or a
disconnect.  `awaitPreload` is the receive loop of `main.rs:305-340`;
`none` means the event list ran out while the loop was still waiting. -/

/-- `main.rs:46-51`; the decoded stream is an opaque handle. -/
structure PreloadedData where
  decoder : Nat
  title : String
  artist : String
  totalDuration : Nat
deriving DecidableEq, Repr

/-- `main.rs:54-57`. -/
inductive PreloadResult where
  | success (data : PreloadedData) (index : Nat)
  | failure (index : Nat) (errType : String) (filename : String)
deriving DecidableEq, Repr

/-- One observation of `rx.recv_timeout(5 s)` in `main.rs:307`. -/
inductive ChanEvent where
  | msg (r : PreloadResult)
  | timeout
  | disconnect
deriving DecidableEq, Repr

/-- `main.rs:108-117` `start_preload_if_valid`: the list of preloads
started (one for `idx` when it is inside the playlist, none otherwise). -/
def startPreloadIfValid (plen idx : Nat) : List Nat :=
  if idx < plen then [idx] else []

/-- The arguments of one `display_error_and_wait` call (`main.rs:120-134`). -/
structure ErrorReport where
  index : Nat
  errType : String
  filename : String
deriving DecidableEq, Repr

/-- How the receive loop of `main.rs:305-340` resolves. -/
inductive AwaitResult where
  | gotData (data : PreloadedData) (index : Nat)
  | advance (newIndex : Nat) (report : ErrorReport) (preloads : List Nat)
  | fatal
deriving DecidableEq, Repr

/-- `main.rs:305-340`: the coordinator's receive loop while awaiting the
preload result for `cur`.  A success tagged `cur` is handed over; a
failure tagged `cur` is reported once, the index advances by one and a
preload for the advanced index is started when valid; a timeout is
treated the same with kind `"加载超时"` and an empty display name; any
result tagged with a different index is silently dropped; a disconnect is
fatal. -/
def awaitPreload (plen cur : Nat) : List ChanEvent → Option AwaitResult
  | [] => none
  | ChanEvent.msg (PreloadResult.success d i) :: rest =>
      if i = cur then some (AwaitResult.gotData d i)
      else awaitPreload plen cur rest
  | ChanEvent.msg (PreloadResult.failure i e f) :: rest =>
      if i = cur then
        some (AwaitResult.advance (cur + 1) ⟨cur, e, f⟩ (startPreloadIfValid plen (cur + 1)))
      else awaitPreload plen cur rest
  | ChanEvent.timeout :: _ =>
      some (AwaitResult.advance (cur + 1) ⟨cur, "加载超时", ""⟩
        (startPreloadIfValid plen (cur + 1)))
  | ChanEvent.disconnect :: _ => some AwaitResult.fatal

/-- `main.rs:76-79`: the display name the preloader attaches to its
failure messages (`Path::file_name`), modelled as the characters after
the last `/` of the path. -/
def filenameDisplay (path : String) : String :=
  String.mk (path.toList.foldl (fun acc c => if c = '/' then [] else acc ++ [c]) [])

/-- C2: a preload result whose tagged index differs from the awaited one
is discarded without any effect (the receive loop behaves exactly as if
the stale message never arrived), and the sink only ever receives a
decoded stream whose tag equals the awaited index. -/
theorem stale_results_discarded (plen cur : Nat) :
    (∀ (d : PreloadedData) (i : Nat) (rest : List ChanEvent), i ≠ cur →
      awaitPreload plen cur (ChanEvent.msg (PreloadResult.success d i) :: rest) =
        awaitPreload plen cur rest) ∧
    (∀ (i : Nat) (e f : String) (rest : List ChanEvent), i ≠ cur →
      awaitPreload plen cur (ChanEvent.msg (PreloadResult.failure i e f) :: rest) =
        awaitPreload plen cur rest) ∧
    (∀ (evs : List ChanEvent) (d : PreloadedData) (i : Nat),
      awaitPreload plen cur evs = some (AwaitResult.gotData d i) → i = cur) := by
  refine ⟨?_, ?_, ?_⟩
  · intro d i rest hne
    simp [awaitPreload, hne]
  · intro i e f rest hne
    simp [awaitPreload, hne]
  · intro evs
    induction evs with
    | nil => intro d i h; simp [awaitPreload] at h
    | cons ev rest ih =>
        intro d i h
        match ev with
        | ChanEvent.msg (PreloadResult.success d' i') =>
            by_cases hi : i' = cur
            · simp [awaitPreload, hi] at h
              omega
            · rw [awaitPreload, if_neg hi] at h
              exact ih d i h
        | ChanEvent.msg (PreloadResult.failure i' e f) =>
            by_cases hi : i' = cur
            · simp [awaitPreload, hi] at h
            · rw [awaitPreload, if_neg hi] at h
              exact ih d i h
        | ChanEvent.timeout => simp [awaitPreload] at h
        | ChanEvent.disconnect => simp [awaitPreload] at h

/-- C2 witness: a stale success for slot 0 while awaiting slot 1 is
dropped, leaving the receive loop exactly as without it. -/
theorem stale_results_discarded_witness :
    awaitPreload 3 1
        (ChanEvent.msg (PreloadResult.success ⟨7, "t", "a", 180⟩ 0) :: [ChanEvent.timeout]) =
      awaitPreload 3 1 [ChanEvent.timeout] :=
  (stale_results_discarded 3 1).1 ⟨7, "t", "a", 180⟩ 0 [ChanEvent.timeout] (by decide)

/-- C4 counterexample: on a channel timeout the coordinator reports the
failure with an *empty* display name (`main.rs:329` passes `""`), not the
track's display name: with playlist `["a.mp3"]` the timeout report's
filename field is `""` while the track's display name is `"a.mp3"`. -/
theorem failure_handling_counterexample :
    awaitPreload 1 0 [ChanEvent.timeout] =
      some (AwaitResult.advance 1 ⟨0, "加载超时", ""⟩ []) ∧
    filenameDisplay "a.mp3" = "a.mp3" ∧
    ("" : String) ≠ "a.mp3" := by
  refine ⟨by simp [awaitPreload, startPreloadIfValid], by decide, by decide⟩

/-- C4 (amended): on a `Failed` result tagged with the awaited index the
coordinator reports the failure kind and the track's display name exactly
once; on a timeout it reports the kind `"加载超时"` with an empty display
name; in both cases it advances the index by exactly one, starts a new
preload for the advanced index exactly when that index is within the
playlist, never starts one for the failed index (no retry), and the
session continues (the outcome is an advance, not fatal). -/
theorem failure_handling_spec (plen cur : Nat) :
    (∀ (e f : String) (rest : List ChanEvent),
      awaitPreload plen cur (ChanEvent.msg (PreloadResult.failure cur e f) :: rest) =
        some (AwaitResult.advance (cur + 1) ⟨cur, e, f⟩ (startPreloadIfValid plen (cur + 1)))) ∧
    (∀ (rest : List ChanEvent),
      awaitPreload plen cur (ChanEvent.timeout :: rest) =
        some (AwaitResult.advance (cur + 1) ⟨cur, "加载超时", ""⟩
          (startPreloadIfValid plen (cur + 1)))) ∧
    (cur + 1 < plen → startPreloadIfValid plen (cur + 1) = [cur + 1]) ∧
    (plen ≤ cur + 1 → startPreloadIfValid plen (cur + 1) = []) ∧
    cur ∉ startPreloadIfValid plen (cur + 1) ∧
    (∀ r p, AwaitResult.advance (cur + 1) r p ≠ AwaitResult.fatal) := by
  refine ⟨?_, ?_, ?_, ?_, ?_, ?_⟩
  · intro e f rest
    simp [awaitPreload]
  · intro rest
    simp [awaitPreload]
  · intro h
    simp [startPreloadIfValid, h]
  · intro h
    simp [startPreloadIfValid, Nat.not_lt.mpr h]
  · by_cases h : cur + 1 < plen
    · simp [startPreloadIfValid, h]
    · simp [startPreloadIfValid, h]
  · intro r p
    simp

/-- C4 witness: a concrete evaluation of `failure_handling_spec`. -/
theorem failure_handling_spec_witness :
    awaitPreload 3 1 [ChanEvent.msg (PreloadResult.failure 1 "解码失败" "b.mp3")] =
      some (AwaitResult.advance 2 ⟨1, "解码失败", "b.mp3"⟩ (startPreloadIfValid 3 2)) ∧
    startPreloadIfValid 3 2 = [2] ∧
    (1 : Nat) ∉ startPreloadIfValid 3 2 :=
  ⟨(failure_handling_spec 3 1).1 "解码失败" "b.mp3" [],
   (failure_handling_spec 3 1).2.2.1 (by decide),
   (failure_handling_spec 3 1).2.2.2.2.1⟩

/-! ## Pause-aware playback clock (`main.rs` lines 369-395)

Per-track clock state (`start_time`, `paused_duration`, `last_pause_time`,
`last_running_time`) and one iteration of the time-accounting block at the
head of the inner play loop.  `Instant`s are `Nat` milliseconds;
`Instant::elapsed` is truncated subtraction from a monotone `now`, and
`saturating_sub` is `Nat` subtraction. -/

/-- The four per-track clock variables of `main.rs:369-372`. -/
structure ClockState where
  startTime : Nat
  pausedDuration : Nat
  lastPauseTime : Option Nat
  lastRunningTime : Nat
deriving DecidableEq, Repr

/-- One execution of `main.rs:381-395` at instant `now` with the sink
paused flag `isPaused`: the pause-transition bookkeeping followed by the
computation of the displayed `current_time`. -/
def clockTick (s : ClockState) (now : Nat) (isPaused : Bool) : ClockState × Nat :=
  let s' :=
    if isPaused then
      match s.lastPauseTime with
      | none =>
          { s with lastPauseTime := some now,
                   lastRunningTime := now - s.startTime - s.pausedDuration }
      | some _ => s
    else
      match s.lastPauseTime with
      | some ps =>
          { s with lastPauseTime := none,
                   pausedDuration := s.pausedDuration + (now - ps) }
      | none => s
  (s', if isPaused then s'.lastRunningTime else now - s'.startTime - s'.pausedDuration)

/-- The displayed elapsed value determined by a clock state at instant
`t` (frozen value while paused, live value while playing). -/
def elapsedNow (s : ClockState) (t : Nat) : Nat :=
  match s.lastPauseTime with
  | some _ => s.lastRunningTime
  | none => t - s.startTime - s.pausedDuration

/-- Reachability invariant of the clock state at instant `t`: the track
started (and all pauses ended) no later than `t`, and a pending pause
start lies between them with the frozen value captured at that instant. -/
def ClockInv (s : ClockState) (t : Nat) : Prop :=
  s.startTime + s.pausedDuration ≤ t ∧
  ∀ p, s.lastPauseTime = some p →
    s.startTime + s.pausedDuration ≤ p ∧ p ≤ t ∧
    s.lastRunningTime = p - s.startTime - s.pausedDuration

/-- The sequence of displayed `current_time` values along a list of
`(now, isPaused)` ticks. -/
def runClock (s : ClockState) : List (Nat × Bool) → List Nat
  | [] => []
  | (t, b) :: rest => (clockTick s t b).2 :: runClock (clockTick s t b).1 rest

/-- Equation: first tick observed while paused (pause transition). -/
theorem clockTick_pause_start (s : ClockState) (now : Nat) (h : s.lastPauseTime = none) :
    clockTick s now true =
      ({ s with lastPauseTime := some now,
                lastRunningTime := now - s.startTime - s.pausedDuration },
       now - s.startTime - s.pausedDuration) := by
  simp [clockTick, h]

/-- Equation: tick while already paused. -/
theorem clockTick_pause_stay (s : ClockState) (now p : Nat) (h : s.lastPauseTime = some p) :
    clockTick s now true = (s, s.lastRunningTime) := by
  simp [clockTick, h]

/-- Equation: first tick observed after a resume (pause interval is added
to the accumulator). -/
theorem clockTick_resume (s : ClockState) (now p : Nat) (h : s.lastPauseTime = some p) :
    clockTick s now false =
      ({ s with lastPauseTime := none,
                pausedDuration := s.pausedDuration + (now - p) },
       now - s.startTime - (s.pausedDuration + (now - p))) := by
  simp [clockTick, h]

/-- Equation: tick while playing with no pending pause. -/
theorem clockTick_play (s : ClockState) (now : Nat) (h : s.lastPauseTime = none) :
    clockTick s now false = (s, now - s.startTime - s.pausedDuration) := by
  simp [clockTick, h]

theorem clockTick_step (s : ClockState) (t t' : Nat) (b : Bool)
    (hinv : ClockInv s t) (ht : t ≤ t') :
    ClockInv (clockTick s t' b).1 t' ∧
    elapsedNow s t ≤ (clockTick s t' b).2 ∧
    (clockTick s t' b).2 = elapsedNow (clockTick s t' b).1 t' := by
  obtain ⟨hst, hp⟩ := hinv
  cases b with
  | true =>
      cases hlp : s.lastPauseTime with
      | none =>
          rw [clockTick_pause_start s t' hlp]
          refine ⟨⟨by simp; omega, ?_⟩, ?_, ?_⟩
          · intro q hq
            simp at hq
            simp
            omega
          · simp [elapsedNow, hlp]
            omega
          · simp [elapsedNow]
      | some p =>
          obtain ⟨hp1, hp2, hp3⟩ := hp p hlp
          rw [clockTick_pause_stay s t' p hlp]
          refine ⟨⟨by simp; omega, ?_⟩, ?_, ?_⟩
          · intro q hq
            obtain ⟨h1, h2, h3⟩ := hp q hq
            exact ⟨h1, by omega, h3⟩
          · simp [elapsedNow, hlp]
          · simp [elapsedNow, hlp]
  | false =>
      cases hlp : s.lastPauseTime with
      | none =>
          rw [clockTick_play s t' hlp]
          refine ⟨⟨by simp; omega, ?_⟩, ?_, ?_⟩
          · intro q hq
            rw [hlp] at hq
            cases hq
          · simp [elapsedNow, hlp]
            omega
          · simp [elapsedNow, hlp]
      | some p =>
          obtain ⟨hp1, hp2, hp3⟩ := hp p hlp
          rw [clockTick_resume s t' p hlp]
          refine ⟨⟨by simp; omega, ?_⟩, ?_, ?_⟩
          · intro q hq
            simp at hq
          · simp [elapsedNow, hlp]
            omega
          · simp [elapsedNow]

theorem runClock_mono (ticks : List (Nat × Bool)) :
    ∀ (s : ClockState) (t : Nat), ClockInv s t →
      List.Chain (· ≤ ·) t (ticks.map Prod.fst) →
      List.Chain' (· ≤ ·) (elapsedNow s t :: runClock s ticks) := by
  induction ticks with
  | nil => intro s t _ _; simp [runClock]
  | cons tb rest ih =>
      intro s t hinv hchain
      obtain ⟨t', b⟩ := tb
      simp only [List.map_cons, List.chain_cons] at hchain
      obtain ⟨ht, hchain'⟩ := hchain
      obtain ⟨hinv', hmono, hout⟩ := clockTick_step s t t' b hinv ht
      simp only [runClock, List.chain'_cons]
      refine ⟨hmono, ?_⟩
      rw [hout]
      exact ih _ t' hinv' hchain'

/-- C3: while the sink is paused the displayed elapsed time is the value
captured at the transition into pause and is constant across ticks (the
tick does not change the state); the transition into pause captures
`now - start - accumulated`; while playing the displayed value equals
`now - start - accumulated pause`; on the resume tick it equals exactly
the frozen value (pause intervals are never double-counted); and along
every monotone sequence of pause/resume ticks the displayed values are
monotonically non-decreasing. -/
theorem clock_pause_spec (s : ClockState) (t : Nat) (hinv : ClockInv s t) :
    (∀ ticks : List (Nat × Bool), List.Chain (· ≤ ·) t (ticks.map Prod.fst) →
      List.Chain' (· ≤ ·) (elapsedNow s t :: runClock s ticks)) ∧
    (∀ t' p, s.lastPauseTime = some p →
      clockTick s t' true = (s, s.lastRunningTime)) ∧
    (∀ t', s.lastPauseTime = none →
      (clockTick s t' true).1.lastRunningTime = t' - s.startTime - s.pausedDuration ∧
      (clockTick s t' true).2 = t' - s.startTime - s.pausedDuration) ∧
    (∀ t', (clockTick s t' false).2 =
      t' - s.startTime - (clockTick s t' false).1.pausedDuration) ∧
    (∀ t' p, t ≤ t' → s.lastPauseTime = some p →
      (clockTick s t' false).2 = s.lastRunningTime) := by
  refine ⟨?_, ?_, ?_, ?_, ?_⟩
  · intro ticks hchain
    exact runClock_mono ticks s t hinv hchain
  · intro t' p hp
    exact clockTick_pause_stay s t' p hp
  · intro t' hlp
    rw [clockTick_pause_start s t' hlp]
    constructor <;> simp
  · intro t'
    cases hlp : s.lastPauseTime with
    | none => rw [clockTick_play s t' hlp]
    | some p => rw [clockTick_resume s t' p hlp]
  · intro t' p ht hp
    obtain ⟨hst, hpp⟩ := hinv
    obtain ⟨h1, h2, h3⟩ := hpp p hp
    rw [clockTick_resume s t' p hp]
    simp
    omega

/-- C3 witness: `clock_pause_spec` evaluated at a fresh track clock, a
concrete play/pause/pause/resume tick sequence and a concrete playing
tick. -/
theorem clock_pause_spec_witness :
    List.Chain' (· ≤ ·)
      (elapsedNow (⟨0, 0, none, 0⟩ : ClockState) 0 ::
        runClock (⟨0, 0, none, 0⟩ : ClockState)
          [(5, false), (10, true), (20, true), (30, false)]) ∧
    (clockTick (⟨0, 0, none, 0⟩ : ClockState) 12 false).2 =
      12 - (⟨0, 0, none, 0⟩ : ClockState).startTime -
        (clockTick (⟨0, 0, none, 0⟩ : ClockState) 12 false).1.pausedDuration :=
  ⟨(clock_pause_spec ⟨0, 0, none, 0⟩ 0 ⟨by decide, fun p hp => nomatch hp⟩).1
      [(5, false), (10, true), (20, true), (30, false)]
      (by simp [List.chain_cons]),
   (clock_pause_spec ⟨0, 0, none, 0⟩ 0
      ⟨by decide, fun p hp => nomatch hp⟩).2.2.2.1 12⟩

/-! ## Session engine skeleton (`main.rs` lines 278-497)

Session state shared across tracks (`main.rs:272-280`), the render/input
tick loop of one playing track (`main.rs:378-473`), and the outer
playlist loop (`main.rs:283-491`).  Keyboard input and sink emptiness are
script inputs; sink volume is exact (`ℚ`); terminal side effects are
recorded as a trace of actions.  Progress rendering (`main.rs:398-413`)
writes to the terminal only and is not tracked. -/

/-- The keys recognized by the inner loop (`main.rs:418-469`); `keyQuit`
stands for `q`/`Q`/`c`. -/
inductive Key where
  | keyP
  | keySpace
  | keyUp
  | keyDown
  | keyRight
  | keyLeft
  | keyQuit
  | keyOther
deriving DecidableEq, Repr

/-- One iteration of the inner loop: the instant, whether the sink
reported empty at the loop head, and the key delivered by `event::poll`
(if any). -/
structure InnerTick where
  now : Nat
  sinkEmpty : Bool
  key : Option Key
deriving DecidableEq, Repr

/-- The engine state living outside the per-track loop
(`main.rs:272-280` and the sink): `current_track_index`, the sink
volume, `muted_volume`, the sink paused flag, `last_skip_time`. -/
structure EngineState where
  currentIndex : Nat
  volume : ℚ
  mutedVolume : Option ℚ
  sinkPaused : Bool
  lastSkipTime : Nat
deriving DecidableEq, Repr

/-- `main.rs:190-194` `adjust_volume`: add the step and clamp to `[0,1]`. -/
def adjust_volume (v delta : ℚ) : ℚ := min (max (v + delta) 0) 1

/-- `main.rs:420-434` (the `P` key): un-mute restores the remembered
volume and clears it; mute remembers the sink volume and silences the
sink. -/
def toggleMute (s : EngineState) : EngineState :=
  match s.mutedVolume with
  | some v => { s with volume := v, mutedVolume := none }
  | none => { s with mutedVolume := some s.volume, volume := 0 }

/-- How the inner play loop of `main.rs:378-473` ends: user quit, a
forced skip with `index_offset`, the sink reporting empty (natural track
end), or the tick script running out (model artifact). -/
inductive InnerExit where
  | quitNow
  | skipped (offset : Int)
  | trackEnded
  | scriptEnded
deriving DecidableEq, Repr

/-- The inner play loop of `main.rs:378-473`, processing ticks until the
sink is empty, a skip is honored, or quit is pressed; `lastToggle` is the
`last_toggle_time` debounce for `P`/space (`main.rs:375,421,438`). -/
def runInner (total : Nat) (loopE : Bool) :
    EngineState → Nat → List InnerTick → InnerExit × EngineState
  | s, _, [] => (InnerExit.scriptEnded, s)
  | s, lastToggle, tick :: rest =>
    if tick.sinkEmpty then (InnerExit.trackEnded, s)
    else
      match tick.key with
      | none => runInner total loopE s lastToggle rest
      | some Key.keyP =>
          if tick.now - lastToggle < 200 then runInner total loopE s lastToggle rest
          else runInner total loopE (toggleMute s) tick.now rest
      | some Key.keySpace =>
          if tick.now - lastToggle < 200 then runInner total loopE s lastToggle rest
          else runInner total loopE { s with sinkPaused := !s.sinkPaused } tick.now rest
      | some Key.keyUp =>
          runInner total loopE
            { s with volume := adjust_volume s.volume (1 / 100) } lastToggle rest
      | some Key.keyDown =>
          runInner total loopE
            { s with volume := adjust_volume s.volume (-(1 / 100)) } lastToggle rest
      | some Key.keyRight =>
          if tick.now - s.lastSkipTime < 250 then runInner total loopE s lastToggle rest
          else if s.currentIndex < total - 1 ∨ loopE then
            (InnerExit.skipped 1, { s with lastSkipTime := tick.now })
          else runInner total loopE s lastToggle rest
      | some Key.keyLeft =>
          if tick.now - s.lastSkipTime < 250 then runInner total loopE s lastToggle rest
          else if 0 < s.currentIndex ∨ loopE then
            (InnerExit.skipped (-1), { s with lastSkipTime := tick.now })
          else runInner total loopE s lastToggle rest
      | some Key.keyQuit => (InnerExit.quitNow, s)
      | some Key.keyOther => runInner total loopE s lastToggle rest

/-- The index update after a forced stop (`main.rs:476-482`). -/
def forcedIndexUpdate (total cur : Nat) (offset : Int) : Nat :=
  if 0 < offset then (cur + 1) % total
  else if offset < 0 then (if cur = 0 then total - 1 else cur - 1)
  else cur

/-- Terminal side effects the session records. -/
inductive TermAction where
  | clearLine
  | printMsg (s : String)
  | errorLine (index total : Nat) (errType filename : String)
  | eprintMsg (s : String)
  | disableRaw
  | showCursor
deriving DecidableEq, Repr

/-- `main.rs:60-68` `graceful_exit`: clear the current line, print the
farewell message, disable raw mode, show the cursor. -/
def gracefulExitTrace : List TermAction :=
  [TermAction.clearLine, TermAction.printMsg "👋 播放器退出。",
   TermAction.disableRaw, TermAction.showCursor]

/-- `main.rs:120-134` `display_error_and_wait`: clear the line, print the
error with track position, failure kind and display name, clear again. -/
def displayErrorTrace (index total : Nat) (errType filename : String) : List TermAction :=
  [TermAction.clearLine, TermAction.errorLine index total errType filename,
   TermAction.clearLine]

/-- The script driving one outer-loop iteration: whether the quick poll
at `main.rs:285-292` saw a quit key, the channel events observed by the
await loop, the instant the track starts, and the inner-loop ticks. -/
structure OuterIter where
  pollQuit : Bool
  chanEvents : List ChanEvent
  startNow : Nat
  innerTicks : List InnerTick
deriving DecidableEq, Repr

/-- How the session ends: explicit quit, natural end of the playlist,
fatal channel disconnect, or the script running out (model artifact). -/
inductive SessionOutcome where
  | quit
  | finishedList
  | fatalChan
  | scriptEnded
deriving DecidableEq, Repr

/-- The loop-playback check at the top of the outer loop
(`main.rs:295-302`): an index past the end wraps to `0` when looping. -/
def wrapIndex (total : Nat) (loopE : Bool) (s : EngineState) : EngineState :=
  if total ≤ s.currentIndex ∧ loopE = true then { s with currentIndex := 0 } else s

/-- The outer playlist loop of `main.rs:283-497`: the quick quit poll,
the loop/termination check (`main.rs:295-302`), the preload await
(`awaitPreload`), the inner play loop, and the index update, followed by
`graceful_exit` on every exit path (`main.rs:288,300/494,337/494,466`). -/
def runOuter (total : Nat) (loopE : Bool) :
    EngineState → List OuterIter → SessionOutcome × EngineState × List TermAction
  | s, [] => (SessionOutcome.scriptEnded, s, [])
  | s, it :: rest =>
    if it.pollQuit then (SessionOutcome.quit, s, gracefulExitTrace)
    else
      let s1 := wrapIndex total loopE s
      if total ≤ s1.currentIndex then (SessionOutcome.finishedList, s1, gracefulExitTrace)
      else
        match awaitPreload total s1.currentIndex it.chanEvents with
        | none => (SessionOutcome.scriptEnded, s1, [])
        | some AwaitResult.fatal =>
            (SessionOutcome.fatalChan, s1,
              TermAction.eprintMsg "[致命错误] 预加载通道关闭，退出播放器..." :: gracefulExitTrace)
        | some (AwaitResult.advance newIdx r _pls) =>
            let res := runOuter total loopE { s1 with currentIndex := newIdx } rest
            (res.1, res.2.1, displayErrorTrace r.index total r.errType r.filename ++ res.2.2)
        | some (AwaitResult.gotData _d _i) =>
            match runInner total loopE { s1 with sinkPaused := false } (it.startNow - 300)
                it.innerTicks with
            | (InnerExit.quitNow, s3) => (SessionOutcome.quit, s3, gracefulExitTrace)
            | (InnerExit.scriptEnded, s3) => (SessionOutcome.scriptEnded, s3, [])
            | (InnerExit.skipped off, s3) =>
                runOuter total loopE
                  { s3 with currentIndex := forcedIndexUpdate total s3.currentIndex off } rest
            | (InnerExit.trackEnded, s3) =>
                let res := runOuter total loopE
                  { s3 with currentIndex := s3.currentIndex + 1 } rest
                (res.1, res.2.1, TermAction.clearLine :: res.2.2)

/-- `main.rs:453-462` and `main.rs:476-486` as one pure request handler:
the rate-limit guard (`last_skip_time.elapsed() < MIN_SKIP_INTERVAL`
drops the request), then the legality guard and index update of
`apply_forced_skip`; an honored skip records its instant in
`last_skip_time`.  Returns `(new index, new last_skip_time)`. -/
def applySkipRequest (total : Nat) (loopE : Bool) (dir : SkipDir) (now cur lastSkip : Nat) :
    Nat × Nat :=
  if now - lastSkip < 250 then (cur, lastSkip)
  else
    match apply_forced_skip cur total loopE dir with
    | some i => (i, now)
    | none => (cur, lastSkip)

/-- C5: a forced-skip request is honored only when at least 250 ms have
passed since the last honored skip; if a first request is honored at `t1`
(changing the index once) and a second arrives at `t2` within 250 ms of
`t1`, the second is dropped silently — the state is completely unchanged,
so no queued skip can fire later and exactly one index change occurs. -/
theorem skip_rate_limit_spec (total : Nat) (loopE : Bool) (d1 d2 : SkipDir)
    (t1 t2 cur last0 : Nat)
    (h1 : 250 ≤ t1 - last0) (_hseq : t1 ≤ t2) (h2 : t2 - t1 < 250)
    (hlegal : apply_forced_skip cur total loopE d1 ≠ none) :
    applySkipRequest total loopE d2 t2
        (applySkipRequest total loopE d1 t1 cur last0).1
        (applySkipRequest total loopE d1 t1 cur last0).2 =
      applySkipRequest total loopE d1 t1 cur last0 ∧
    (applySkipRequest total loopE d1 t1 cur last0).2 = t1 ∧
    (∀ (t c l : Nat) (d : SkipDir), t - l < 250 →
      applySkipRequest total loopE d t c l = (c, l)) := by
  cases hskip : apply_forced_skip cur total loopE d1 with
  | none => exact absurd hskip hlegal
  | some i =>
      have hr1 : applySkipRequest total loopE d1 t1 cur last0 = (i, t1) := by
        simp [applySkipRequest, Nat.not_lt.mpr h1, hskip]
      refine ⟨?_, ?_, ?_⟩
      · rw [hr1]
        simp [applySkipRequest, h2]
      · rw [hr1]
      · intro t c l d h
        simp [applySkipRequest, h]

/-- C5 witness: a concrete evaluation of `skip_rate_limit_spec` (first
forward skip at `t = 250`, second at `t = 300`). -/
theorem skip_rate_limit_spec_witness :
    applySkipRequest 3 false SkipDir.forward 300
        (applySkipRequest 3 false SkipDir.forward 250 0 0).1
        (applySkipRequest 3 false SkipDir.forward 250 0 0).2 =
      applySkipRequest 3 false SkipDir.forward 250 0 0 ∧
    (applySkipRequest 3 false SkipDir.forward 250 0 0).2 = 250 ∧
    (∀ (t c l : Nat) (d : SkipDir), t - l < 250 →
      applySkipRequest 3 false d t c l = (c, l)) :=
  skip_rate_limit_spec 3 false SkipDir.forward SkipDir.forward 250 300 0 0
    (by decide) (by decide) (by decide) (by decide)

theorem runOuter_graceful (script : List OuterIter) :
    ∀ (total : Nat) (loopE : Bool) (s : EngineState),
      (runOuter total loopE s script).1 ≠ SessionOutcome.scriptEnded →
      ∃ pre, (runOuter total loopE s script).2.2 = pre ++ gracefulExitTrace := by
  induction script with
  | nil =>
      intro total loopE s h
      simp [runOuter] at h
  | cons it rest ih =>
      intro total loopE s h
      by_cases hq : it.pollQuit = true
      · exact ⟨[], by simp [runOuter, hq]⟩
      · by_cases hend : total ≤ (wrapIndex total loopE s).currentIndex
        · exact ⟨[], by simp [runOuter, hq, hend]⟩
        · cases haw : awaitPreload total (wrapIndex total loopE s).currentIndex it.chanEvents with
          | none =>
              exfalso
              apply h
              simp [runOuter, hq, hend, haw]
          | some ar =>
              cases ar with
              | fatal =>
                  refine ⟨[TermAction.eprintMsg "[致命错误] 预加载通道关闭，退出播放器..."], ?_⟩
                  simp [runOuter, hq, hend, haw]
              | advance newIdx r pls =>
                  have h' : (runOuter total loopE
                      { wrapIndex total loopE s with currentIndex := newIdx } rest).1 ≠
                      SessionOutcome.scriptEnded := by
                    intro hc
                    apply h
                    simp [runOuter, hq, hend, haw, hc]
                  obtain ⟨p, hp⟩ := ih total loopE _ h'
                  refine ⟨displayErrorTrace r.index total r.errType r.filename ++ p, ?_⟩
                  simp [runOuter, hq, hend, haw, hp]
              | gotData d i =>
                  cases hri : runInner total loopE
                      { wrapIndex total loopE s with sinkPaused := false }
                      (it.startNow - 300) it.innerTicks with
                  | mk e s3 =>
                      cases e with
                      | quitNow => exact ⟨[], by simp [runOuter, hq, hend, haw, hri]⟩
                      | scriptEnded =>
                          exfalso
                          apply h
                          simp [runOuter, hq, hend, haw, hri]
                      | skipped off =>
                          have h' : (runOuter total loopE
                              { s3 with currentIndex :=
                                  forcedIndexUpdate total s3.currentIndex off } rest).1 ≠
                              SessionOutcome.scriptEnded := by
                            intro hc
                            apply h
                            simp [runOuter, hq, hend, haw, hri, hc]
                          obtain ⟨p, hp⟩ := ih total loopE _ h'
                          refine ⟨p, ?_⟩
                          simp [runOuter, hq, hend, haw, hri, hp]
                      | trackEnded =>
                          have h' : (runOuter total loopE
                              { s3 with currentIndex := s3.currentIndex + 1 } rest).1 ≠
                              SessionOutcome.scriptEnded := by
                            intro hc
                            apply h
                            simp [runOuter, hq, hend, haw, hri, hc]
                          obtain ⟨p, hp⟩ := ih total loopE _ h'
                          refine ⟨TermAction.clearLine :: p, ?_⟩
                          simp [runOuter, hq, hend, haw, hri, hp]

/-- C6: a channel disconnect while awaiting a preload ends the session
(the outer loop terminates with the fatal outcome rather than retrying),
and on this exit path — as on every exit path of the session (explicit
quit, end of playlist, quit during playback) — the terminal trace ends
with `graceful_exit` (raw mode disabled and cursor shown) before the
process exits. -/
theorem terminal_restore_spec (total : Nat) (loopE : Bool) (s : EngineState)
    (script : List OuterIter) :
    ((runOuter total loopE s script).1 ≠ SessionOutcome.scriptEnded →
      ∃ pre, (runOuter total loopE s script).2.2 = pre ++ gracefulExitTrace) ∧
    (∀ it rest, it.pollQuit = false → s.currentIndex < total →
      awaitPreload total s.currentIndex it.chanEvents = some AwaitResult.fatal →
      (runOuter total loopE s (it :: rest)).1 = SessionOutcome.fatalChan ∧
      TermAction.disableRaw ∈ (runOuter total loopE s (it :: rest)).2.2 ∧
      TermAction.showCursor ∈ (runOuter total loopE s (it :: rest)).2.2) := by
  refine ⟨fun h => runOuter_graceful script total loopE s h, ?_⟩
  intro it rest hq hcur haw
  have hwrap : wrapIndex total loopE s = s := by
    simp [wrapIndex, Nat.not_le.mpr hcur]
  have hend : ¬ total ≤ (wrapIndex total loopE s).currentIndex := by
    rw [hwrap]
    omega
  rw [hwrap] at hend
  refine ⟨?_, ?_, ?_⟩ <;>
    simp [runOuter, hq, hwrap, hend, haw, gracefulExitTrace]

/-- C6 witness: `terminal_restore_spec` at a one-track playlist whose
only outer iteration observes a channel disconnect. -/
theorem terminal_restore_spec_witness :
    ((runOuter 1 false ⟨0, 1, none, false, 0⟩
        [⟨false, [ChanEvent.disconnect], 0, []⟩]).1 ≠ SessionOutcome.scriptEnded →
      ∃ pre, (runOuter 1 false ⟨0, 1, none, false, 0⟩
          [⟨false, [ChanEvent.disconnect], 0, []⟩]).2.2 = pre ++ gracefulExitTrace) ∧
    ((runOuter 1 false ⟨0, 1, none, false, 0⟩
        [(⟨false, [ChanEvent.disconnect], 0, []⟩ : OuterIter)]).1 =
          SessionOutcome.fatalChan ∧
      TermAction.disableRaw ∈ (runOuter 1 false ⟨0, 1, none, false, 0⟩
        [(⟨false, [ChanEvent.disconnect], 0, []⟩ : OuterIter)]).2.2 ∧
      TermAction.showCursor ∈ (runOuter 1 false ⟨0, 1, none, false, 0⟩
        [(⟨false, [ChanEvent.disconnect], 0, []⟩ : OuterIter)]).2.2) :=
  ⟨(terminal_restore_spec 1 false ⟨0, 1, none, false, 0⟩
      [⟨false, [ChanEvent.disconnect], 0, []⟩]).1,
   (terminal_restore_spec 1 false ⟨0, 1, none, false, 0⟩
      [⟨false, [ChanEvent.disconnect], 0, []⟩]).2
     ⟨false, [ChanEvent.disconnect], 0, []⟩ [] rfl (by decide) (by decide)⟩

theorem runInner_mute_preserved (ticks : List InnerTick) :
    ∀ (total : Nat) (loopE : Bool) (s : EngineState) (lt : Nat),
      (∀ tk ∈ ticks, tk.key ≠ some Key.keyP) →
      (runInner total loopE s lt ticks).2.mutedVolume = s.mutedVolume := by
  induction ticks with
  | nil => intro total loopE s lt _; simp [runInner]
  | cons tk rest ih =>
      intro total loopE s lt hk
      have hk0 : tk.key ≠ some Key.keyP := hk tk (by simp)
      have hkr : ∀ t ∈ rest, t.key ≠ some Key.keyP := fun t ht => hk t (by simp [ht])
      by_cases he : tk.sinkEmpty = true
      · simp [runInner, he]
      · cases hkey : tk.key with
        | none => simp [runInner, he, hkey, ih total loopE s lt hkr]
        | some k =>
            cases k with
            | keyP => exact absurd hkey hk0
            | keySpace =>
                by_cases ht : tk.now - lt < 200
                · simp [runInner, he, hkey, ht, ih _ _ _ _ hkr]
                · simp [runInner, he, hkey, ht, ih _ _ _ _ hkr]
            | keyUp => simp [runInner, he, hkey, ih _ _ _ _ hkr]
            | keyDown => simp [runInner, he, hkey, ih _ _ _ _ hkr]
            | keyRight =>
                by_cases ht : tk.now - s.lastSkipTime < 250
                · simp [runInner, he, hkey, ht, ih _ _ _ _ hkr]
                · by_cases hl : s.currentIndex < total - 1 ∨ loopE = true
                  · simp [runInner, he, hkey, ht, hl]
                  · simp [runInner, he, hkey, ht, hl, ih _ _ _ _ hkr]
            | keyLeft =>
                by_cases ht : tk.now - s.lastSkipTime < 250
                · simp [runInner, he, hkey, ht, ih _ _ _ _ hkr]
                · by_cases hl : 0 < s.currentIndex ∨ loopE = true
                  · simp [runInner, he, hkey, ht, hl]
                  · simp [runInner, he, hkey, ht, hl, ih _ _ _ _ hkr]
            | keyQuit => simp [runInner, he, hkey]
            | keyOther => simp [runInner, he, hkey, ih _ _ _ _ hkr]

theorem runOuter_mute_preserved (script : List OuterIter) :
    ∀ (total : Nat) (loopE : Bool) (s : EngineState),
      (∀ it ∈ script, ∀ tk ∈ it.innerTicks, tk.key ≠ some Key.keyP) →
      (runOuter total loopE s script).2.1.mutedVolume = s.mutedVolume := by
  induction script with
  | nil => intro total loopE s _; simp [runOuter]
  | cons it rest ih =>
      intro total loopE s hk
      have hk0 : ∀ tk ∈ it.innerTicks, tk.key ≠ some Key.keyP := hk it (by simp)
      have hkr : ∀ j ∈ rest, ∀ tk ∈ j.innerTicks, tk.key ≠ some Key.keyP :=
        fun j hj => hk j (by simp [hj])
      have hwm : (wrapIndex total loopE s).mutedVolume = s.mutedVolume := by
        by_cases hc : total ≤ s.currentIndex ∧ loopE = true
        · simp [wrapIndex, hc]
        · simp [wrapIndex, hc]
      by_cases hq : it.pollQuit = true
      · simp [runOuter, hq]
      · by_cases hend : total ≤ (wrapIndex total loopE s).currentIndex
        · simp [runOuter, hq, hend, hwm]
        · cases haw : awaitPreload total (wrapIndex total loopE s).currentIndex it.chanEvents with
          | none => simp [runOuter, hq, hend, haw, hwm]
          | some ar =>
              cases ar with
              | fatal => simp [runOuter, hq, hend, haw, hwm]
              | advance newIdx r pls =>
                  have h2 := ih total loopE
                    { wrapIndex total loopE s with currentIndex := newIdx } hkr
                  simp only at h2
                  simp [runOuter, hq, hend, haw, h2]
                  exact hwm
              | gotData d i =>
                  have hmv := runInner_mute_preserved it.innerTicks total loopE
                    { wrapIndex total loopE s with sinkPaused := false }
                    (it.startNow - 300) hk0
                  cases hri : runInner total loopE
                      { wrapIndex total loopE s with sinkPaused := false }
                      (it.startNow - 300) it.innerTicks with
                  | mk e s3 =>
                      rw [hri] at hmv
                      simp only at hmv hri
                      cases e with
                      | quitNow =>
                          simp [runOuter, hq, hend, haw, hri]
                          exact hmv.trans hwm
                      | scriptEnded =>
                          simp [runOuter, hq, hend, haw, hri]
                          exact hmv.trans hwm
                      | skipped off =>
                          have h2 := ih total loopE
                            { s3 with currentIndex :=
                                forcedIndexUpdate total s3.currentIndex off } hkr
                          simp only at h2
                          simp [runOuter, hq, hend, haw, hri, h2]
                          exact hmv.trans hwm
                      | trackEnded =>
                          have h2 := ih total loopE
                            { s3 with currentIndex := s3.currentIndex + 1 } hkr
                          simp only at h2
                          simp [runOuter, hq, hend, haw, hri, h2]
                          exact hmv.trans hwm

/-- C9: pressing mute while not muted remembers the sink volume and sets
the sink volume to `0`; pressing it again restores exactly the
remembered volume and clears the stored value, so mute followed by
un-mute is a round-trip on the engine state; and the stored pre-mute
volume survives track transitions because it lives outside the
per-track loop: for every engine state — muted or not — any session run
whose ticks never press `P` leaves `muted_volume` unchanged, and in
particular a stored value `some v` is still `some v` after the run. -/
theorem mute_toggle_spec (s : EngineState) (hnm : s.mutedVolume = none) :
    (toggleMute s).volume = 0 ∧
    (toggleMute s).mutedVolume = some s.volume ∧
    toggleMute (toggleMute s) = s ∧
    (∀ (t : EngineState) (total : Nat) (loopE : Bool) (script : List OuterIter),
      (∀ it ∈ script, ∀ tk ∈ it.innerTicks, tk.key ≠ some Key.keyP) →
      (runOuter total loopE t script).2.1.mutedVolume = t.mutedVolume) ∧
    (∀ (t : EngineState) (v : ℚ), t.mutedVolume = some v →
      ∀ (total : Nat) (loopE : Bool) (script : List OuterIter),
      (∀ it ∈ script, ∀ tk ∈ it.innerTicks, tk.key ≠ some Key.keyP) →
      (runOuter total loopE t script).2.1.mutedVolume = some v) := by
  refine ⟨?_, ?_, ?_, ?_, ?_⟩
  · simp [toggleMute, hnm]
  · simp [toggleMute, hnm]
  · cases s with
    | mk ci v mv sp ls =>
        simp only at hnm
        subst hnm
        simp [toggleMute]
  · intro t total loopE script hk
    exact runOuter_mute_preserved script total loopE t hk
  · intro t v hv total loopE script hk
    exact (runOuter_mute_preserved script total loopE t hk).trans hv

/-- C9 witness: `mute_toggle_spec` at a concrete engine state, with the
preservation conjuncts evaluated at a concrete *muted* state
(`muted_volume = some (3/4)`) across a session script containing a track
transition and no `P` press. -/
theorem mute_toggle_spec_witness :
    (toggleMute ⟨0, 1 / 2, none, false, 0⟩).volume = 0 ∧
    (toggleMute ⟨0, 1 / 2, none, false, 0⟩).mutedVolume =
      some ((⟨0, 1 / 2, none, false, 0⟩ : EngineState).volume) ∧
    toggleMute (toggleMute ⟨0, 1 / 2, none, false, 0⟩) =
      (⟨0, 1 / 2, none, false, 0⟩ : EngineState) ∧
    (runOuter 2 false ⟨1, 0, some (3 / 4), false, 0⟩
        [⟨false, [ChanEvent.msg (PreloadResult.success ⟨7, "t", "a", 9⟩ 1)], 0,
          [⟨0, true, none⟩]⟩]).2.1.mutedVolume =
      (⟨1, 0, some (3 / 4), false, 0⟩ : EngineState).mutedVolume ∧
    (runOuter 2 false ⟨1, 0, some (3 / 4), false, 0⟩
        [⟨false, [ChanEvent.msg (PreloadResult.success ⟨7, "t", "a", 9⟩ 1)], 0,
          [⟨0, true, none⟩]⟩]).2.1.mutedVolume = some (3 / 4) :=
  ⟨(mute_toggle_spec ⟨0, 1 / 2, none, false, 0⟩ rfl).1,
   (mute_toggle_spec ⟨0, 1 / 2, none, false, 0⟩ rfl).2.1,
   (mute_toggle_spec ⟨0, 1 / 2, none, false, 0⟩ rfl).2.2.1,
   (mute_toggle_spec ⟨0, 1 / 2, none, false, 0⟩ rfl).2.2.2.1
     ⟨1, 0, some (3 / 4), false, 0⟩ 2 false
     [⟨false, [ChanEvent.msg (PreloadResult.success ⟨7, "t", "a", 9⟩ 1)], 0,
       [⟨0, true, none⟩]⟩] (by simp),
   (mute_toggle_spec ⟨0, 1 / 2, none, false, 0⟩ rfl).2.2.2.2
     ⟨1, 0, some (3 / 4), false, 0⟩ (3 / 4) rfl 2 false
     [⟨false, [ChanEvent.msg (PreloadResult.success ⟨7, "t", "a", 9⟩ 1)], 0,
       [⟨0, true, none⟩]⟩] (by simp)⟩

/-! ## Startup, playlist resolution outcome and process exit codes
(`main.rs` lines 201-234) -/

/-- Outcome of `get_playlist_from_input` as observed by `main`
(`utils.rs:13-67` performs I/O; only the shape of its result decides
`main`'s early paths). -/
inductive ResolveOutcome where
  | ok (playlist : List String)
  | ioError
deriving DecidableEq, Repr

/-- Result of the pre-engine part of `main`: `earlyExitCode = some c`
means `main` returns before the core engine starts, with process exit
code `c`; `none` means the engine is entered. -/
structure StartupResult where
  earlyExitCode : Option Nat
  stderrMsgs : List String
deriving DecidableEq, Repr

/-- `main.rs:201-229`: a missing file argument prints help and returns
`Ok(())`; a resolution failure prints an error to stderr and returns
`Ok(())` (`main.rs:220-223`); an empty playlist does the same
(`main.rs:226-229`); otherwise the engine is entered.  A `Result::Ok`
return from `main` makes the process exit with code 0 (`Err` would
signal a non-zero code). -/
def mainStartup (fileArg : Option String) (resolved : ResolveOutcome) : StartupResult :=
  match fileArg with
  | none => { earlyExitCode := some 0, stderrMsgs := [] }
  | some inputPath =>
    match resolved with
    | ResolveOutcome.ioError =>
        { earlyExitCode := some 0,
          stderrMsgs := ["[错误]处理输入路径 '" ++ inputPath ++ "' 时失败"] }
    | ResolveOutcome.ok p =>
        if p.isEmpty then
          { earlyExitCode := some 0,
            stderrMsgs := ["[错误]在指定的路径中未找到支持的音频文件。"] }
        else { earlyExitCode := none, stderrMsgs := [] }

/-- The exit code implied by a session outcome: every terminating
session path returns `Ok(())` from `main` (`main.rs:289, 467, 494-496`),
i.e. exit code 0; `none` for the model artifact of an exhausted script. -/
def sessionExitCode : SessionOutcome → Option Nat
  | SessionOutcome.quit => some 0
  | SessionOutcome.finishedList => some 0
  | SessionOutcome.fatalChan => some 0
  | SessionOutcome.scriptEnded => none

/-- The process exit code of a full run of `main`. -/
def processExitCode (st : StartupResult) (sessionOut : SessionOutcome) : Option Nat :=
  match st.earlyExitCode with
  | some c => some c
  | none => sessionExitCode sessionOut

/-- C7 counterexample: an unresolvable playlist input makes `main` print
an error and `return Ok(())` (`main.rs:220-223`), so the process exits
with code 0 — it does not signal any non-zero exit code; the
empty-playlist path behaves the same. -/
theorem exit_code_counterexample :
    (mainStartup (some "missing.mp3") ResolveOutcome.ioError).earlyExitCode = some 0 ∧
    (mainStartup (some "missing.mp3") ResolveOutcome.ioError).stderrMsgs ≠ [] ∧
    ¬(∃ c, (mainStartup (some "missing.mp3") ResolveOutcome.ioError).earlyExitCode = some c ∧
        c ≠ 0) ∧
    (mainStartup (some "x") (ResolveOutcome.ok [])).earlyExitCode = some 0 := by
  refine ⟨rfl, by decide, ?_, rfl⟩
  rintro ⟨c, hc, hne⟩
  have h0 : (mainStartup (some "missing.mp3") ResolveOutcome.ioError).earlyExitCode =
      some 0 := rfl
  rw [h0] at hc
  exact hne (Option.some.inj hc).symm

/-- C7 (amended): normal completion of the playlist and explicit quit
both make the process exit with code 0; an unresolvable playlist input or
an empty resolved playlist makes `main` return via an early error path —
an error is printed on stderr and the core engine is never entered — but
this path also exits with code 0 (it returns `Ok(())`), not a non-zero
code. -/
theorem exit_code_spec (inputPath : String) (p : List String)
    (total : Nat) (loopE : Bool) (s : EngineState) (script : List OuterIter) :
    ((runOuter total loopE s script).1 = SessionOutcome.quit ∨
      (runOuter total loopE s script).1 = SessionOutcome.finishedList →
      processExitCode (mainStartup (some inputPath) (ResolveOutcome.ok p))
        (runOuter total loopE s script).1 = some 0) ∧
    ((mainStartup (some inputPath) ResolveOutcome.ioError).earlyExitCode = some 0 ∧
      (mainStartup (some inputPath) ResolveOutcome.ioError).stderrMsgs ≠ []) ∧
    (p = [] →
      (mainStartup (some inputPath) (ResolveOutcome.ok p)).earlyExitCode = some 0 ∧
      (mainStartup (some inputPath) (ResolveOutcome.ok p)).stderrMsgs ≠ []) ∧
    (p ≠ [] →
      (mainStartup (some inputPath) (ResolveOutcome.ok p)).earlyExitCode = none) := by
  refine ⟨?_, ⟨rfl, by simp [mainStartup]⟩, ?_, ?_⟩
  · intro hout
    by_cases hp : p.isEmpty
    · cases hout with
      | inl h => simp [processExitCode, mainStartup, hp, h, sessionExitCode]
      | inr h => simp [processExitCode, mainStartup, hp, h, sessionExitCode]
    · cases hout with
      | inl h => simp [processExitCode, mainStartup, hp, h, sessionExitCode]
      | inr h => simp [processExitCode, mainStartup, hp, h, sessionExitCode]
  · intro hp
    subst hp
    exact ⟨rfl, by simp [mainStartup]⟩
  · intro hp
    simp [mainStartup, List.isEmpty_iff, hp]

/-- C7 witness: a concrete quit run and the concrete early error paths. -/
theorem exit_code_spec_witness :
    processExitCode (mainStartup (some "a.mp3") (ResolveOutcome.ok ["a.mp3"]))
      (runOuter 1 false ⟨0, 1, none, false, 0⟩
        [(⟨true, [], 0, []⟩ : OuterIter)]).1 = some 0 ∧
    (mainStartup (some "missing.mp3") ResolveOutcome.ioError).earlyExitCode = some 0 ∧
    (mainStartup (some "missing.mp3") (ResolveOutcome.ok ["a.mp3"])).earlyExitCode = none :=
  ⟨(exit_code_spec "a.mp3" ["a.mp3"] 1 false ⟨0, 1, none, false, 0⟩
      [⟨true, [], 0, []⟩]).1 (Or.inl rfl),
   (exit_code_spec "missing.mp3" ["a.mp3"] 1 false ⟨0, 1, none, false, 0⟩ []).2.1.1,
   (exit_code_spec "missing.mp3" ["a.mp3"] 1 false ⟨0, 1, none, false, 0⟩ []).2.2.2
     (by decide)⟩

/-! ## Shuffle (`main.rs` lines 231-234) -/

/-- Modelled from the spec: `main.rs:231-234` permutes the playlist via
the external `rand` crate's `SliceRandom::shuffle`, which the spec
describes as "Fisher–Yates or equivalent uniform shuffle"; the crate is
not part of this repository, so the shuffle is modelled as the
equivalent selection shuffle driven by an arbitrary random choice
function `choose` (each step picks position `choose n % n` among the `n`
remaining elements).  Fuel-indexed helper. -/
def specShuffleAux {α : Type} (choose : Nat → Nat) : Nat → List α → List α
  | 0, _ => []
  | _, [] => []
  | fuel + 1, a :: rest =>
      let k := choose (rest.length + 1) % (rest.length + 1)
      (a :: rest).getD k a :: specShuffleAux choose fuel ((a :: rest).eraseIdx k)

/-- Modelled from the spec: the one-time shuffle of the playlist. -/
def specShuffle {α : Type} (choose : Nat → Nat) (l : List α) : List α :=
  specShuffleAux choose l.length l

/-- `main.rs:231-234`: the playlist is shuffled exactly once, before the
session engine starts, and only when random mode is enabled; the engine
receives the already-permuted list and thereafter uses linear indices. -/
def preparePlaylist {α : Type} (isRandom : Bool) (choose : Nat → Nat) (l : List α) :
    List α :=
  if isRandom then specShuffle choose l else l

theorem specShuffleAux_perm {α : Type} [DecidableEq α] (choose : Nat → Nat) :
    ∀ (fuel : Nat) (l : List α), l.length ≤ fuel →
      List.Perm (specShuffleAux choose fuel l) l := by
  intro fuel
  induction fuel with
  | zero =>
      intro l hl
      have hnil : l = [] := List.eq_nil_of_length_eq_zero (Nat.le_zero.mp hl)
      subst hnil
      simp [specShuffleAux]
  | succ fuel ih =>
      intro l hl
      cases l with
      | nil => simp [specShuffleAux]
      | cons a rest =>
          have hk : choose (rest.length + 1) % (rest.length + 1) < rest.length + 1 :=
            Nat.mod_lt _ (Nat.succ_pos _)
          have hklen : choose (rest.length + 1) % (rest.length + 1) <
              (a :: rest).length := by simpa using hk
          have hstep : specShuffleAux choose (fuel + 1) (a :: rest) =
              (a :: rest).getD (choose (rest.length + 1) % (rest.length + 1)) a ::
                specShuffleAux choose fuel
                  ((a :: rest).eraseIdx (choose (rest.length + 1) % (rest.length + 1))) := by
            simp [specShuffleAux]
          have hlen : ((a :: rest).eraseIdx
              (choose (rest.length + 1) % (rest.length + 1))).length ≤ fuel := by
            have h1 := List.length_eraseIdx_add_one hklen
            have h2 : (a :: rest).length = rest.length + 1 := by simp
            have h3 : (a :: rest).length ≤ fuel + 1 := hl
            omega
          have hrec := ih _ hlen
          rw [hstep, List.getD_eq_getElem _ _ hklen]
          refine List.Perm.trans (List.Perm.cons _ hrec) ?_
          refine List.Perm.trans (List.Perm.cons _ (List.erase_getElem hklen).symm) ?_
          exact (List.perm_cons_erase (List.getElem_mem hklen)).symm

/-- C8: shuffling happens exactly once, before the session starts
(`preparePlaylist` computes the list handed to the engine, which
thereafter only indexes into it), and produces a permutation: for every
random choice function the multiset of track paths is unchanged, and a
1-element playlist is returned unchanged. -/
theorem shuffle_permutation_spec (choose : Nat → Nat) (l : List String) (isRandom : Bool)
    (a : String) :
    List.Perm (preparePlaylist isRandom choose l) l ∧
    (↑(preparePlaylist isRandom choose l) : Multiset String) = (↑l : Multiset String) ∧
    preparePlaylist isRandom choose [a] = [a] := by
  have hperm : List.Perm (preparePlaylist isRandom choose l) l := by
    by_cases hr : isRandom = true
    · simp only [preparePlaylist, hr, if_true]
      exact specShuffleAux_perm choose l.length l (le_refl _)
    · simp [preparePlaylist, hr]
  refine ⟨hperm, Multiset.coe_eq_coe.mpr hperm, ?_⟩
  by_cases hr : isRandom = true
  · simp [preparePlaylist, hr, specShuffle, specShuffleAux]
  · simp [preparePlaylist, hr]
